import Mathlib
/-!
Verification development for the flask-project repository: a spec-modelled
tokenizer/aligner core (the alignment module is imported by the server but its
source is not part of the repository snapshot, so it is modelled from the
specification) and shallow embeddings of the Flask server routes in
app/server.py.
-/
namespace CodeAlign
/-- Token is the atomic unit of comparison; its normalized textual value is a
string, and two tokens are equal iff their normalized values are equal. -/
abbrev Token := String
def emptyTok : Token := ""
/-- Modelled from the spec: the Alignment Cell Operation, one of
Match, Substitute, InsertGapInFirst, InsertGapInSecond. -/
inductive CellOp where
  | Match
  | Substitute
  | InsertGapInFirst
  | InsertGapInSecond
deriving DecidableEq, Repr
/-- Modelled from the spec: the fixed configuration constants of the Aligner
(match bonus, substitution penalty, gap penalty, size bound on the length
product). -/
structure AlignConfig where
  matchBonus : Int
  substPenalty : Int
  gapPenalty : Int
  maxProduct : Nat
deriving DecidableEq, Repr
/-- Modelled from the spec: a positive value when the tokens are equal, a
negative (or zero) value otherwise. -/
def subScore (cfg : AlignConfig) (x y : Token) : Int :=
  if x = y then cfg.matchBonus else cfg.substPenalty
/-- Fuel-indexed scoring recurrence; the fuel argument makes the recursion
structural, and `scoreAux_congr` shows the value does not depend on the fuel
once it is at least `i + j`. -/
def scoreAux (cfg : AlignConfig) (A B : List Token) : Nat → Nat → Nat → Int
  | _, 0, 0 => 0
  | _, i+1, 0 => ((i : Int) + 1) * cfg.gapPenalty
  | _, 0, j+1 => ((j : Int) + 1) * cfg.gapPenalty
  | 0, _+1, _+1 => 0
  | fuel+1, i+1, j+1 =>
      max (max (scoreAux cfg A B fuel i j + subScore cfg (A.getD i emptyTok) (B.getD j emptyTok))
               (scoreAux cfg A B fuel i (j+1) + cfg.gapPenalty))
          (scoreAux cfg A B fuel (i+1) j + cfg.gapPenalty)
/-- Modelled from the spec: the scoring recurrence over the grid
`(m+1) × (n+1)`. -/
def score (cfg : AlignConfig) (A B : List Token) (i j : Nat) : Int :=
  scoreAux cfg A B (i + j) i j
/-- Modelled from the spec: the backtrace from `(m,n)` to `(0,0)` following the
recorded choice at each cell, with the fixed tie-break policy: prefer
match/substitute over either gap direction when scores tie; between the two gap
directions, prefer advancing the first sequence (insert gap in the second).
The fuel argument makes the recursion structural. -/
def backtraceAux (cfg : AlignConfig) (A B : List Token) : Nat → Nat → Nat → List CellOp
  | _, 0, 0 => []
  | 0, _, _ => []
  | f+1, i+1, 0 => backtraceAux cfg A B f i 0 ++ [CellOp.InsertGapInSecond]
  | f+1, 0, j+1 => backtraceAux cfg A B f 0 j ++ [CellOp.InsertGapInFirst]
  | f+1, i+1, j+1 =>
      if score cfg A B (i+1) (j+1) =
          score cfg A B i j + subScore cfg (A.getD i emptyTok) (B.getD j emptyTok) then
        backtraceAux cfg A B f i j ++
          [if A.getD i emptyTok = B.getD j emptyTok then CellOp.Match else CellOp.Substitute]
      else if score cfg A B (i+1) (j+1) = score cfg A B i (j+1) + cfg.gapPenalty then
        backtraceAux cfg A B f i (j+1) ++ [CellOp.InsertGapInSecond]
      else
        backtraceAux cfg A B f (i+1) j ++ [CellOp.InsertGapInFirst]
/-- The Alignment Cell Operation sequence produced by the backtrace, in
original (forward) order. -/
def backtrace (cfg : AlignConfig) (A B : List Token) : List CellOp :=
  backtraceAux cfg A B (A.length + B.length) A.length B.length
/-- Reconstruction of `aligned_first`: an InsertGapInFirst emits a gap marker,
every other operation emits the next token of the first sequence. -/
def alignedFirst : List CellOp → List Token → List (Option Token)
  | [], _ => []
  | op :: ops, as =>
      if op = CellOp.InsertGapInFirst then none :: alignedFirst ops as
      else as.head? :: alignedFirst ops as.tail
/-- Reconstruction of `aligned_second`: an InsertGapInSecond emits a gap
marker, every other operation emits the next token of the second sequence. -/
def alignedSecond : List CellOp → List Token → List (Option Token)
  | [], _ => []
  | op :: ops, bs =>
      if op = CellOp.InsertGapInSecond then none :: alignedSecond ops bs
      else bs.head? :: alignedSecond ops bs.tail
/-- Number of operations that consume a token of the first sequence. -/
def consumedFirst (ops : List CellOp) : Nat :=
  (ops.filter (fun op => op ≠ CellOp.InsertGapInFirst)).length
/-- Number of operations that consume a token of the second sequence. -/
def consumedSecond (ops : List CellOp) : Nat :=
  (ops.filter (fun op => op ≠ CellOp.InsertGapInSecond)).length
/-- Count of Match operations. -/
def matchCount (ops : List CellOp) : Nat :=
  (ops.filter (fun op => op = CellOp.Match)).length
/-- Modelled from the spec: the count of Match operations divided by the number
of aligned positions; two empty sequences define similarity 1. -/
def similarityScore (ops : List CellOp) (alignedLen : Nat) : Rat :=
  if alignedLen = 0 then 1 else (matchCount ops : Rat) / (alignedLen : Rat)
/-- Modelled from the spec: the Alignment Result, the output of the core. -/
structure AlignmentResult where
  ops : List CellOp
  aligned_first : List (Option Token)
  aligned_second : List (Option Token)
  similarity : Rat
deriving DecidableEq, Repr
/-- Modelled from the spec: the error raised when the length product exceeds
the configured bound. -/
inductive AlignError where
  | SequenceTooLargeError
deriving DecidableEq, Repr
/-- Modelled from the spec: `align` fails fast with SequenceTooLargeError when
the product of lengths exceeds the configured bound, and otherwise returns the
complete Alignment Result. -/
def align (cfg : AlignConfig) (A B : List Token) : Except AlignError AlignmentResult :=
  if cfg.maxProduct < A.length * B.length then Except.error AlignError.SequenceTooLargeError
  else
    let ops := backtrace cfg A B
    let af := alignedFirst ops A
    Except.ok ⟨ops, af, alignedSecond ops B, similarityScore ops af.length⟩
/-- Similarity of an alignment outcome, with a default for the error case. -/
def simOf : Except AlignError AlignmentResult → Rat
  | Except.ok r => r.similarity
  | Except.error _ => 0
/-- Aligned first sequence of an alignment outcome. -/
def alignedFirstOf : Except AlignError AlignmentResult → List (Option Token)
  | Except.ok r => r.aligned_first
  | Except.error _ => []
/-- Aligned second sequence of an alignment outcome. -/
def alignedSecondOf : Except AlignError AlignmentResult → List (Option Token)
  | Except.ok r => r.aligned_second
  | Except.error _ => []
/-- Concrete tokens and configurations used to exercise the aligner on
concrete inputs. -/
def tokA : Token := "a"
def tokB : Token := "b"
def tokC : Token := "c"
def cfgDemo : AlignConfig := ⟨2, -1, -1, 1000000⟩
def cfgTie : AlignConfig := ⟨2, 0, -1, 1000000⟩
def cfgSmall : AlignConfig := ⟨2, -1, -1, 1⟩
end CodeAlign

namespace Server

/-- Database model for a user, from app/server.py (class User). -/
structure User where
  id : Nat
  username : String
  password_hash : String
deriving DecidableEq, Repr

/-- Database model for alignment history, from app/server.py
(class AlignmentHistory); the similarity column is modelled as a rational and
the timestamp as a natural number. -/
structure AlignmentHistory where
  id : Nat
  user_id : Nat
  file1_name : String
  file2_name : String
  file1_content : String
  file2_content : String
  aligned_file1 : String
  aligned_file2 : String
  similarity : Rat
  date_created : Nat
  alignment_id : String
deriving DecidableEq, Repr

/-- Retrieve the currently logged-in user, from app/server.py (current_user):
the session value must be present and truthy (nonzero) and name an existing
User row. -/
def current_user (users : List User) (sess : Option Nat) : Option User :=
  match sess with
  | none => none
  | some uid => if uid = 0 then none else users.find? (fun u => u.id == uid)

def newline : String := "\n"

/-- Response of the alignment-results route: redirect to login, redirect to
history, or render the stored record's fields. -/
inductive ResultsResponse where
  | redirectLogin
  | redirectHistory
  | renderResults (similarity : Rat) (file1 file2 : String)
      (file1_tokens file2_tokens : List String) (file1_name file2_name : String)
deriving DecidableEq, Repr

/-- The alignment-results route, from app/server.py (alignment_results):
query the first AlignmentHistory row whose alignment_id and user_id both
match, render it, and otherwise redirect to the history page. -/
def alignment_results (users : List User) (histories : List AlignmentHistory)
    (sess : Option Nat) (aid : String) : ResultsResponse :=
  match current_user users sess with
  | none => ResultsResponse.redirectLogin
  | some _ =>
    match histories.find? (fun a => a.alignment_id == aid && a.user_id == sess.getD 0) with
    | none => ResultsResponse.redirectHistory
    | some a =>
        ResultsResponse.renderResults a.similarity a.file1_content a.file2_content
          (a.aligned_file1.splitOn newline) (a.aligned_file2.splitOn newline)
          a.file1_name a.file2_name

def hashMarker : String := "pbkdf2-sha256:"

/-- Modelled library function: werkzeug generate_password_hash, abstracted as
a total function that tags the password; the register route stores only this
value, never the raw password column. -/
def generate_password_hash (password : String) : String :=
  hashMarker ++ password

/-- Autoincrement primary key for a fresh User row. -/
def next_user_id (users : List User) : Nat :=
  (users.map User.id).foldr max 0 + 1

/-- Outcome of a POST to the register route: the resulting User table, the
resulting session user id, and whether a row was inserted. -/
structure RegisterOutcome where
  users : List User
  sess : Option Nat
  registered : Bool
deriving DecidableEq, Repr

/-- The register route on POST, from app/server.py (register): reject when the
username already exists, otherwise insert a row with the hashed password and
log the new user in. -/
def register (users : List User) (sess : Option Nat)
    (username password : String) : RegisterOutcome :=
  if (users.find? (fun u => u.username == username)).isSome then
    ⟨users, sess, false⟩
  else
    ⟨users ++ [⟨next_user_id users, username, generate_password_hash password⟩],
     some (next_user_id users), true⟩

def uploadsRoot : String := "uploads/"

def slash : String := "/"

/-- The on-disk directory of one saved alignment, from app/server.py
(os.path.join of uploads, user id, alignment id). -/
def alignment_dir (user_id : Nat) (aid : String) : String :=
  uploadsRoot ++ toString user_id ++ slash ++ aid

/-- The requesting user's alignment rows ordered by date_created ascending,
from app/server.py (manage_alignment_storage); the SQL ORDER BY is modelled
as a stable insertion sort on the timestamp. -/
def userAlignments (histories : List AlignmentHistory) (user_id : Nat) :
    List AlignmentHistory :=
  List.insertionSort (fun a b => a.date_created ≤ b.date_created)
    (histories.filter (fun a => a.user_id == user_id))

/-- The storage-retention helper, from app/server.py
(manage_alignment_storage): when a user has more than five alignments, delete
the upload directories of all but the five most recent; the filesystem is
modelled as the list of directories present on disk, and the database tables
pass through unchanged because the function only reads them. -/
def manage_alignment_storage (users : List User) (histories : List AlignmentHistory)
    (fs : List String) (user_id : Nat) :
    List User × List AlignmentHistory × List String :=
  let alignments := userAlignments histories user_id
  if 5 < alignments.length then
    let toRemove := alignments.take (alignments.length - 5)
    (users, histories,
     fs.filter (fun d => ! toRemove.any (fun a => alignment_dir user_id a.alignment_id == d)))
  else (users, histories, fs)

/-- An uploaded file as the align route sees it: a filename, the declared
content length checked by the route, and the raw bytes. -/
structure FileUpload where
  filename : List Char
  content_length : Nat
  content : List Nat
deriving DecidableEq, Repr

def pyExt : List Char := ['.', 'p', 'y']

/-- Python str.endswith on character lists. -/
def ends_with (s suf : List Char) : Bool :=
  decide (suf.length ≤ s.length) && decide (s.drop (s.length - suf.length) = suf)

/-- The 1MB upload bound from app/server.py (max_size = 1 * 1024 * 1024). -/
def MAX_SIZE : Nat := 1 * 1024 * 1024

def err_required : String := "Both files are required."

def err_ext1 : String := "File 1 must be a Python file with a .py extension."

def err_ext2 : String := "File 2 must be a Python file with a .py extension."

def err_size1 : String := "File 1 must be smaller than 1MB."

def err_size2 : String := "File 2 must be smaller than 1MB."

def replacementChar : Char := Char.ofNat 0xFFFD

/-- Modelled library function: the Python codec call decode with errors
replace, total on every byte list and never failing; bytes in the ASCII range
decode to the corresponding character and any other byte decodes to the
replacement character. -/
def decode_replace : List Nat → List Char
  | [] => []
  | b :: rest =>
      (if b ≤ 0x7F then Char.ofNat b else replacementChar) :: decode_replace rest

/-- Python str.strip: remove leading and trailing whitespace. -/
def pyStrip (s : List Char) : List Char :=
  ((s.dropWhile Char.isWhitespace).reverse.dropWhile Char.isWhitespace).reverse

/-- The validation-error list built by the align route, in the order the code
appends the messages. -/
def upload_errors (file1 file2 : Option FileUpload) : List String :=
  (if file1.isNone || file2.isNone then [err_required] else []) ++
  (match file1 with
   | some f => if ! ends_with f.filename pyExt then [err_ext1] else []
   | none => []) ++
  (match file2 with
   | some f => if ! ends_with f.filename pyExt then [err_ext2] else []
   | none => []) ++
  (match file1 with
   | some f => if MAX_SIZE < f.content_length then [err_size1] else []
   | none => []) ++
  (match file2 with
   | some f => if MAX_SIZE < f.content_length then [err_size2] else []
   | none => [])

/-- Outcome of a POST to the pairwise-alignment route: redirect to login,
rejection with flashed errors, or the decoded stripped texts handed to
perform_alignment. -/
inductive AlignRouteResult where
  | redirectLogin
  | rejected (errors : List String)
  | performed (text1 text2 : List Char)
deriving DecidableEq, Repr

/-- The pairwise-alignment route on POST, from app/server.py (align): validate
presence, extension and size of both uploads, flash the errors and redirect on
any failure, and otherwise call perform_alignment on the decoded stripped
file contents. -/
def align (logged_in : Bool) (file1 file2 : Option FileUpload) : AlignRouteResult :=
  if logged_in = false then AlignRouteResult.redirectLogin
  else if upload_errors file1 file2 = [] then
    match file1, file2 with
    | some f1, some f2 =>
        AlignRouteResult.performed (pyStrip (decode_replace f1.content))
          (pyStrip (decode_replace f2.content))
    | _, _ => AlignRouteResult.rejected [err_required]
  else AlignRouteResult.rejected (upload_errors file1 file2)

def uAlice : String := "alice"

def uBob : String := "bob"

def uCarol : String := "carol"

def pwDemo : String := "hunter-two"

def aidOne : String := "aid-one"

def aidTwo : String := "aid-two"

def bodyTxt : String := "pass"

def fnameTxt : String := "main.py"

def wAlice : User := ⟨1, uAlice, generate_password_hash pwDemo⟩

def wBob : User := ⟨2, uBob, generate_password_hash pwDemo⟩

def histOne : AlignmentHistory :=
  ⟨1, 1, fnameTxt, fnameTxt, bodyTxt, bodyTxt, bodyTxt, bodyTxt, 1, 10, aidOne⟩

def histTwo : AlignmentHistory :=
  ⟨2, 2, fnameTxt, fnameTxt, bodyTxt, bodyTxt, bodyTxt, bodyTxt, 1, 20, aidTwo⟩

def usersW : List User := [wAlice, wBob]

def historiesW : List AlignmentHistory := [histOne, histTwo]

def fsW : List String := [alignment_dir 1 aidOne]

def wfile1 : FileUpload := ⟨['a', '.', 'p', 'y'], 2, [104, 105]⟩

def wfile2 : FileUpload := ⟨['b', '.', 'p', 'y'], 3, [104, 105, 106]⟩

end Server

namespace CodeAlign
theorem scoreAux_congr (cfg : AlignConfig) (A B : List Token) :
    ∀ (f g i j : Nat), i + j ≤ f → i + j ≤ g →
      scoreAux cfg A B f i j = scoreAux cfg A B g i j := by
  intro f
  induction f with
  | zero =>
    intro g i j hf _
    have hi : i = 0 := by omega
    have hj : j = 0 := by omega
    subst hi; subst hj
    cases g <;> simp [scoreAux]
  | succ f ih =>
    intro g i j hf hg
    match i, j with
    | 0, 0 => cases g <;> simp [scoreAux]
    | i+1, 0 => cases g <;> simp [scoreAux]
    | 0, j+1 => cases g <;> simp [scoreAux]
    | i+1, j+1 =>
      match g, hg with
      | g+1, hg =>
        simp only [scoreAux]
        rw [ih g i j (by omega) (by omega),
            ih g i (j+1) (by omega) (by omega),
            ih g (i+1) j (by omega) (by omega)]
theorem score_zero_zero (cfg : AlignConfig) (A B : List Token) :
    score cfg A B 0 0 = 0 := rfl
theorem score_succ_zero (cfg : AlignConfig) (A B : List Token) (i : Nat) :
    score cfg A B (i+1) 0 = ((i : Int) + 1) * cfg.gapPenalty := rfl
theorem score_zero_succ (cfg : AlignConfig) (A B : List Token) (j : Nat) :
    score cfg A B 0 (j+1) = ((j : Int) + 1) * cfg.gapPenalty := rfl
theorem score_succ_succ (cfg : AlignConfig) (A B : List Token) (i j : Nat) :
    score cfg A B (i+1) (j+1) =
      max (max (score cfg A B i j + subScore cfg (A.getD i emptyTok) (B.getD j emptyTok))
               (score cfg A B i (j+1) + cfg.gapPenalty))
          (score cfg A B (i+1) j + cfg.gapPenalty) := by
  show scoreAux cfg A B (i+1+(j+1)) (i+1) (j+1) = _
  have h : i+1+(j+1) = (i+j+1)+1 := by omega
  rw [h]
  simp only [scoreAux]
  rw [scoreAux_congr cfg A B (i+j+1) (i+j) i j (by omega) (by omega),
      scoreAux_congr cfg A B (i+j+1) (i+(j+1)) i (j+1) (by omega) (by omega),
      scoreAux_congr cfg A B (i+j+1) ((i+1)+j) (i+1) j (by omega) (by omega)]
  rfl
theorem backtraceAux_congr (cfg : AlignConfig) (A B : List Token) :
    ∀ (f g i j : Nat), i + j ≤ f → i + j ≤ g →
      backtraceAux cfg A B f i j = backtraceAux cfg A B g i j := by
  intro f
  induction f with
  | zero =>
    intro g i j hf _
    have hi : i = 0 := by omega
    have hj : j = 0 := by omega
    subst hi; subst hj
    cases g <;> simp [backtraceAux]
  | succ f ih =>
    intro g i j hf hg
    match i, j with
    | 0, 0 => cases g <;> simp [backtraceAux]
    | i+1, 0 =>
      match g, hg with
      | g+1, hg =>
        simp only [backtraceAux]
        rw [ih g i 0 (by omega) (by omega)]
    | 0, j+1 =>
      match g, hg with
      | g+1, hg =>
        simp only [backtraceAux]
        rw [ih g 0 j (by omega) (by omega)]
    | i+1, j+1 =>
      match g, hg with
      | g+1, hg =>
        simp only [backtraceAux]
        rw [ih g i j (by omega) (by omega),
            ih g i (j+1) (by omega) (by omega),
            ih g (i+1) j (by omega) (by omega)]
theorem alignedFirst_length (ops : List CellOp) :
    ∀ as : List Token, (alignedFirst ops as).length = ops.length := by
  induction ops with
  | nil => intro as; simp [alignedFirst]
  | cons op ops ih =>
    intro as
    by_cases h : op = CellOp.InsertGapInFirst <;> simp [alignedFirst, h, ih]
theorem alignedSecond_length (ops : List CellOp) :
    ∀ bs : List Token, (alignedSecond ops bs).length = ops.length := by
  induction ops with
  | nil => intro bs; simp [alignedSecond]
  | cons op ops ih =>
    intro bs
    by_cases h : op = CellOp.InsertGapInSecond <;> simp [alignedSecond, h, ih]
theorem consumedFirst_append_one (ops : List CellOp) (op : CellOp) :
    consumedFirst (ops ++ [op]) =
      consumedFirst ops + (if op = CellOp.InsertGapInFirst then 0 else 1) := by
  by_cases h : op = CellOp.InsertGapInFirst <;>
    simp [consumedFirst, List.filter_append, h]
theorem consumedSecond_append_one (ops : List CellOp) (op : CellOp) :
    consumedSecond (ops ++ [op]) =
      consumedSecond ops + (if op = CellOp.InsertGapInSecond then 0 else 1) := by
  by_cases h : op = CellOp.InsertGapInSecond <;>
    simp [consumedSecond, List.filter_append, h]
theorem backtraceAux_consumed (cfg : AlignConfig) (A B : List Token) :
    ∀ (f i j : Nat), i + j ≤ f →
      consumedFirst (backtraceAux cfg A B f i j) = i ∧
      consumedSecond (backtraceAux cfg A B f i j) = j := by
  intro f
  induction f with
  | zero =>
    intro i j hf
    have hi : i = 0 := by omega
    have hj : j = 0 := by omega
    subst hi; subst hj
    simp [backtraceAux, consumedFirst, consumedSecond]
  | succ f ih =>
    intro i j hf
    match i, j with
    | 0, 0 => simp [backtraceAux, consumedFirst, consumedSecond]
    | i+1, 0 =>
      obtain ⟨h1, h2⟩ := ih i 0 (by omega)
      simp only [backtraceAux]
      rw [consumedFirst_append_one, consumedSecond_append_one]
      simp [h1, h2]
    | 0, j+1 =>
      obtain ⟨h1, h2⟩ := ih 0 j (by omega)
      simp only [backtraceAux]
      rw [consumedFirst_append_one, consumedSecond_append_one]
      simp [h1, h2]
    | i+1, j+1 =>
      simp only [backtraceAux]
      split
      · obtain ⟨h1, h2⟩ := ih i j (by omega)
        rw [consumedFirst_append_one, consumedSecond_append_one]
        constructor
        · rw [h1]; split <;> simp
        · rw [h2]; split <;> simp
      · split
        · obtain ⟨h1, h2⟩ := ih i (j+1) (by omega)
          rw [consumedFirst_append_one, consumedSecond_append_one]
          simp [h1, h2]
        · obtain ⟨h1, h2⟩ := ih (i+1) j (by omega)
          rw [consumedFirst_append_one, consumedSecond_append_one]
          simp [h1, h2]
theorem backtrace_consumed (cfg : AlignConfig) (A B : List Token) :
    consumedFirst (backtrace cfg A B) = A.length ∧
    consumedSecond (backtrace cfg A B) = B.length :=
  backtraceAux_consumed cfg A B (A.length + B.length) A.length B.length (le_refl _)
theorem consumedFirst_le (ops : List CellOp) : consumedFirst ops ≤ ops.length :=
  List.length_filter_le _ _
theorem consumedSecond_le (ops : List CellOp) : consumedSecond ops ≤ ops.length :=
  List.length_filter_le _ _
theorem matchCount_le (ops : List CellOp) : matchCount ops ≤ ops.length :=
  List.length_filter_le _ _
theorem alignedFirst_filterMap (ops : List CellOp) :
    ∀ as : List Token,
      (alignedFirst ops as).filterMap id = as.take (consumedFirst ops) := by
  induction ops with
  | nil => intro as; simp [alignedFirst, consumedFirst]
  | cons op ops ih =>
    intro as
    by_cases h : op = CellOp.InsertGapInFirst
    · simp [alignedFirst, h, ih, consumedFirst]
    · have hcf : consumedFirst (op :: ops) = consumedFirst ops + 1 := by
        simp [consumedFirst, List.filter_cons, h]
      rw [hcf]
      cases as with
      | nil => simp [alignedFirst, h, ih]
      | cons a as' => simp [alignedFirst, h, ih]
theorem alignedSecond_filterMap (ops : List CellOp) :
    ∀ bs : List Token,
      (alignedSecond ops bs).filterMap id = bs.take (consumedSecond ops) := by
  induction ops with
  | nil => intro bs; simp [alignedSecond, consumedSecond]
  | cons op ops ih =>
    intro bs
    by_cases h : op = CellOp.InsertGapInSecond
    · simp [alignedSecond, h, ih, consumedSecond]
    · have hcs : consumedSecond (op :: ops) = consumedSecond ops + 1 := by
        simp [consumedSecond, List.filter_cons, h]
      rw [hcs]
      cases bs with
      | nil => simp [alignedSecond, h, ih]
      | cons b bs' => simp [alignedSecond, h, ih]

theorem backtraceAux_zero_left (cfg : AlignConfig) (A B : List Token) :
    ∀ (j f : Nat), j ≤ f →
      backtraceAux cfg A B f 0 j = List.replicate j CellOp.InsertGapInFirst := by
  intro j
  induction j with
  | zero => intro f _; cases f <;> simp [backtraceAux]
  | succ j ih =>
    intro f hf
    match f, hf with
    | f+1, hf =>
      simp only [backtraceAux]
      rw [ih f (by omega), List.replicate_succ']

theorem alignedFirst_replicate_gapFirst (n : Nat) (as : List Token) :
    alignedFirst (List.replicate n CellOp.InsertGapInFirst) as = List.replicate n none := by
  induction n with
  | zero => simp [alignedFirst]
  | succ n ih => simp [List.replicate_succ, alignedFirst, ih]

theorem alignedSecond_replicate_gapFirst (bs : List Token) :
    alignedSecond (List.replicate bs.length CellOp.InsertGapInFirst) bs = bs.map some := by
  induction bs with
  | nil => simp [alignedSecond]
  | cons b bs ih => simp [List.replicate_succ, alignedSecond, ih]

theorem matchCount_replicate_gapFirst (n : Nat) :
    matchCount (List.replicate n CellOp.InsertGapInFirst) = 0 := by
  induction n with
  | zero => simp [matchCount]
  | succ n ih => simp [List.replicate_succ, matchCount, List.filter_cons]

/-- C1: for every pair of token sequences accepted by align, the similarity
score equals the count of Match operations divided by the number of aligned
positions (the length of aligned_first), and this value lies in [0,1]. -/
theorem c1_similarity_normalization (cfg : AlignConfig) (A B : List Token)
    (h : A.length * B.length ≤ cfg.maxProduct) :
    ∃ r, align cfg A B = Except.ok r ∧
      (r.aligned_first.length ≠ 0 →
        r.similarity = (matchCount r.ops : Rat) / (r.aligned_first.length : Rat)) ∧
      0 ≤ r.similarity ∧ r.similarity ≤ 1 := by
  have hnot : ¬ cfg.maxProduct < A.length * B.length := by omega
  refine ⟨⟨backtrace cfg A B, alignedFirst (backtrace cfg A B) A,
           alignedSecond (backtrace cfg A B) B,
           similarityScore (backtrace cfg A B) (alignedFirst (backtrace cfg A B) A).length⟩,
         by simp [align, hnot], ?_, ?_, ?_⟩
  · intro hlen
    simp only [similarityScore, if_neg hlen]
  · rw [similarityScore]
    split
    · exact zero_le_one
    · exact div_nonneg (Nat.cast_nonneg _) (Nat.cast_nonneg _)
  · rw [similarityScore]
    split
    · exact le_refl 1
    · rename_i hlen
      rw [div_le_one (by exact_mod_cast Nat.pos_of_ne_zero hlen)]
      have hle : matchCount (backtrace cfg A B) ≤
          (alignedFirst (backtrace cfg A B) A).length := by
        rw [alignedFirst_length]
        exact matchCount_le _
      exact_mod_cast hle

theorem c1_witness :
    [tokA, tokB].length * [tokB].length ≤ cfgDemo.maxProduct ∧
    ∃ r, align cfgDemo [tokA, tokB] [tokB] = Except.ok r ∧
      (r.aligned_first.length ≠ 0 →
        r.similarity = (matchCount r.ops : Rat) / (r.aligned_first.length : Rat)) ∧
      0 ≤ r.similarity ∧ r.similarity ≤ 1 :=
  ⟨by decide, c1_similarity_normalization cfgDemo [tokA, tokB] [tokB] (by decide)⟩

/-- C2: for all accepted token sequences A and B, the two aligned sequences
have equal length, both at least max of the input lengths, and removing the
gap markers from each aligned sequence recovers exactly the original sequence
in its original order. -/
theorem c2_alignment_shape (cfg : AlignConfig) (A B : List Token)
    (h : A.length * B.length ≤ cfg.maxProduct) :
    ∃ r, align cfg A B = Except.ok r ∧
      r.aligned_first.length = r.aligned_second.length ∧
      A.length ≤ r.aligned_first.length ∧ B.length ≤ r.aligned_first.length ∧
      r.aligned_first.filterMap id = A ∧ r.aligned_second.filterMap id = B := by
  have hnot : ¬ cfg.maxProduct < A.length * B.length := by omega
  obtain ⟨hcf, hcs⟩ := backtrace_consumed cfg A B
  refine ⟨⟨backtrace cfg A B, alignedFirst (backtrace cfg A B) A,
           alignedSecond (backtrace cfg A B) B,
           similarityScore (backtrace cfg A B) (alignedFirst (backtrace cfg A B) A).length⟩,
         by simp [align, hnot], ?_, ?_, ?_, ?_, ?_⟩
  · rw [alignedFirst_length, alignedSecond_length]
  · rw [alignedFirst_length, ← hcf]
    exact consumedFirst_le _
  · rw [alignedFirst_length, ← hcs]
    exact consumedSecond_le _
  · rw [alignedFirst_filterMap, hcf, List.take_length]
  · rw [alignedSecond_filterMap, hcs, List.take_length]

theorem c2_witness :
    [tokA, tokB].length * [tokB, tokC].length ≤ cfgDemo.maxProduct ∧
    ∃ r, align cfgDemo [tokA, tokB] [tokB, tokC] = Except.ok r ∧
      r.aligned_first.length = r.aligned_second.length ∧
      [tokA, tokB].length ≤ r.aligned_first.length ∧
      [tokB, tokC].length ≤ r.aligned_first.length ∧
      r.aligned_first.filterMap id = [tokA, tokB] ∧
      r.aligned_second.filterMap id = [tokB, tokC] :=
  ⟨by decide, c2_alignment_shape cfgDemo [tokA, tokB] [tokB, tokC] (by decide)⟩

theorem subScore_le (cfg : AlignConfig) (hs : cfg.substPenalty ≤ cfg.matchBonus)
    (x y : Token) : subScore cfg x y ≤ cfg.matchBonus := by
  rw [subScore]
  split
  · exact le_refl _
  · exact hs

theorem subScore_self (cfg : AlignConfig) (x : Token) :
    subScore cfg x x = cfg.matchBonus := by
  rw [subScore, if_pos rfl]

theorem subScore_comm (cfg : AlignConfig) (x y : Token) :
    subScore cfg x y = subScore cfg y x := by
  rw [subScore, subScore]
  by_cases h : x = y
  · rw [if_pos h, if_pos h.symm]
  · rw [if_neg h, if_neg (fun hc => h hc.symm)]

theorem score_le_min_mul (cfg : AlignConfig) (A B : List Token)
    (hm : 0 ≤ cfg.matchBonus) (hs : cfg.substPenalty ≤ cfg.matchBonus)
    (hg : cfg.gapPenalty ≤ 0) :
    ∀ i j, score cfg A B i j ≤ ((min i j : Nat) : Int) * cfg.matchBonus := by
  intro i
  induction i with
  | zero =>
    intro j
    cases j with
    | zero => simp [score_zero_zero]
    | succ j =>
      rw [score_zero_succ]
      have h1 : ((j : Int) + 1) * cfg.gapPenalty ≤ 0 :=
        mul_nonpos_of_nonneg_of_nonpos (by positivity) hg
      simpa using h1
  | succ i ihi =>
    intro j
    induction j with
    | zero =>
      rw [score_succ_zero]
      have h1 : ((i : Int) + 1) * cfg.gapPenalty ≤ 0 :=
        mul_nonpos_of_nonneg_of_nonpos (by positivity) hg
      simpa using h1
    | succ j ihj =>
      rw [score_succ_succ]
      have hd := ihi j
      have hu := ihi (j+1)
      have hl := ihj
      have hsub := subScore_le cfg hs (A.getD i emptyTok) (B.getD j emptyTok)
      have hmin1 : min (i+1) (j+1) = min i j + 1 := Nat.succ_min_succ i j
      have hmono1 : ((min i (j+1) : Nat) : Int) * cfg.matchBonus ≤
          ((min (i+1) (j+1) : Nat) : Int) * cfg.matchBonus := by
        apply mul_le_mul_of_nonneg_right _ hm
        exact_mod_cast min_le_min (Nat.le_succ i) (le_refl (j+1))
      have hmono2 : ((min (i+1) j : Nat) : Int) * cfg.matchBonus ≤
          ((min (i+1) (j+1) : Nat) : Int) * cfg.matchBonus := by
        apply mul_le_mul_of_nonneg_right _ hm
        exact_mod_cast min_le_min (le_refl (i+1)) (Nat.le_succ j)
      apply max_le (max_le ?_ ?_) ?_
      · rw [hmin1, Nat.cast_add, Nat.cast_one]
        have hexp : (((min i j : Nat) : Int) + 1) * cfg.matchBonus =
            ((min i j : Nat) : Int) * cfg.matchBonus + cfg.matchBonus := by ring
        rw [hexp]
        linarith
      · linarith
      · linarith

theorem score_diag_ge (cfg : AlignConfig) (A : List Token) :
    ∀ n : Nat, (n : Int) * cfg.matchBonus ≤ score cfg A A n n := by
  intro n
  induction n with
  | zero => simp [score_zero_zero]
  | succ n ih =>
    rw [score_succ_succ]
    have h1 := subScore_self cfg (A.getD n emptyTok)
    have h2 : score cfg A A n n + subScore cfg (A.getD n emptyTok) (A.getD n emptyTok) ≤
        max (max (score cfg A A n n + subScore cfg (A.getD n emptyTok) (A.getD n emptyTok))
                 (score cfg A A n (n+1) + cfg.gapPenalty))
            (score cfg A A (n+1) n + cfg.gapPenalty) :=
      le_trans (le_max_left _ _) (le_max_left _ _)
    push_cast
    linarith

theorem score_diag_eq (cfg : AlignConfig) (A : List Token)
    (hm : 0 ≤ cfg.matchBonus) (hs : cfg.substPenalty ≤ cfg.matchBonus)
    (hg : cfg.gapPenalty ≤ 0) (n : Nat) :
    score cfg A A n n = (n : Int) * cfg.matchBonus := by
  apply le_antisymm
  · have h := score_le_min_mul cfg A A hm hs hg n n
    rwa [Nat.min_self] at h
  · exact score_diag_ge cfg A n

theorem backtraceAux_diag (cfg : AlignConfig) (A : List Token)
    (hm : 0 ≤ cfg.matchBonus) (hs : cfg.substPenalty ≤ cfg.matchBonus)
    (hg : cfg.gapPenalty ≤ 0) :
    ∀ (n f : Nat), n + n ≤ f →
      backtraceAux cfg A A f n n = List.replicate n CellOp.Match := by
  intro n
  induction n with
  | zero => intro f _; cases f <;> simp [backtraceAux]
  | succ n ih =>
    intro f hf
    match f, hf with
    | f+1, hf =>
      simp only [backtraceAux]
      have hcond : score cfg A A (n+1) (n+1) =
          score cfg A A n n + subScore cfg (A.getD n emptyTok) (A.getD n emptyTok) := by
        rw [score_diag_eq cfg A hm hs hg, score_diag_eq cfg A hm hs hg, subScore_self]
        push_cast
        ring
      rw [if_pos hcond, ih f (by omega)]
      simp [List.replicate_succ']

theorem matchCount_replicate_match (n : Nat) :
    matchCount (List.replicate n CellOp.Match) = n := by
  induction n with
  | zero => simp [matchCount]
  | succ n ih => simp [List.replicate_succ, matchCount, List.filter_cons] at ih ⊢

/-- C3: aligning a token sequence with itself, under the fixed constants
(positive match bonus, nonpositive substitution and gap penalties) and within
the size bound, yields similarity exactly 1 and an operation sequence
consisting only of Match operations. -/
theorem c3_self_alignment (cfg : AlignConfig) (A : List Token)
    (hm : 0 < cfg.matchBonus) (hs : cfg.substPenalty ≤ 0) (hg : cfg.gapPenalty ≤ 0)
    (hb : A.length * A.length ≤ cfg.maxProduct) :
    ∃ r, align cfg A A = Except.ok r ∧ r.similarity = 1 ∧
      r.ops = List.replicate A.length CellOp.Match := by
  have hnot : ¬ cfg.maxProduct < A.length * A.length := by omega
  have hm' : 0 ≤ cfg.matchBonus := le_of_lt hm
  have hs' : cfg.substPenalty ≤ cfg.matchBonus := le_trans hs hm'
  have hops : backtrace cfg A A = List.replicate A.length CellOp.Match :=
    backtraceAux_diag cfg A hm' hs' hg A.length (A.length + A.length) (le_refl _)
  refine ⟨⟨backtrace cfg A A, alignedFirst (backtrace cfg A A) A,
           alignedSecond (backtrace cfg A A) A,
           similarityScore (backtrace cfg A A)
             (alignedFirst (backtrace cfg A A) A).length⟩,
         by simp [align, hnot], ?_, hops⟩
  show similarityScore (backtrace cfg A A)
    (alignedFirst (backtrace cfg A A) A).length = 1
  rw [alignedFirst_length, hops, List.length_replicate, similarityScore]
  split
  · rfl
  · rename_i hn
    rw [matchCount_replicate_match]
    exact div_self (by exact_mod_cast hn)

theorem c3_witness :
    0 < cfgDemo.matchBonus ∧ cfgDemo.substPenalty ≤ 0 ∧ cfgDemo.gapPenalty ≤ 0 ∧
    [tokA, tokB].length * [tokA, tokB].length ≤ cfgDemo.maxProduct ∧
    ∃ r, align cfgDemo [tokA, tokB] [tokA, tokB] = Except.ok r ∧ r.similarity = 1 ∧
      r.ops = List.replicate [tokA, tokB].length CellOp.Match :=
  ⟨by decide, by decide, by decide, by decide,
   c3_self_alignment cfgDemo [tokA, tokB] (by decide) (by decide) (by decide) (by decide)⟩

theorem score_symm_all (cfg : AlignConfig) (A B : List Token) :
    ∀ i j, score cfg A B i j = score cfg B A j i := by
  intro i
  induction i with
  | zero =>
    intro j
    cases j with
    | zero => rfl
    | succ j => rw [score_zero_succ, score_succ_zero]
  | succ i ihi =>
    intro j
    induction j with
    | zero => rw [score_succ_zero, score_zero_succ]
    | succ j ihj =>
      rw [score_succ_succ, score_succ_succ, ihi j, ihi (j+1), ihj,
          subScore_comm cfg (A.getD i emptyTok) (B.getD j emptyTok)]
      rw [max_assoc, max_comm (score cfg B A (j+1) i + cfg.gapPenalty)
            (score cfg B A j (i+1) + cfg.gapPenalty), ← max_assoc]

/-- C4 (corrected): the claim that align(A,B) and align(B,A) have equal
similarity and mirror-image aligned sequences fails under the fixed tie-break
policy; what does hold is that the optimal alignment score is symmetric, and
align(A,B) fails with SequenceTooLargeError exactly when align(B,A) does. -/
theorem c4_score_symmetry_amended (cfg : AlignConfig) (A B : List Token) :
    score cfg A B A.length B.length = score cfg B A B.length A.length ∧
    (align cfg A B = Except.error AlignError.SequenceTooLargeError ↔
      align cfg B A = Except.error AlignError.SequenceTooLargeError) := by
  constructor
  · exact score_symm_all cfg A B A.length B.length
  · constructor
    · intro h
      by_cases hc : cfg.maxProduct < A.length * B.length
      · simp [align, Nat.mul_comm B.length A.length, hc]
      · simp [align, hc] at h
    · intro h
      by_cases hc : cfg.maxProduct < B.length * A.length
      · simp [align, Nat.mul_comm A.length B.length, hc]
      · simp [align, hc] at h

theorem simOf_align (cfg : AlignConfig) (A B : List Token)
    (h : A.length * B.length ≤ cfg.maxProduct) :
    simOf (align cfg A B) =
      similarityScore (backtrace cfg A B)
        (alignedFirst (backtrace cfg A B) A).length := by
  have hnot : ¬ cfg.maxProduct < A.length * B.length := by omega
  simp [align, hnot, simOf]

/-- C4 counterexample: at the tie-friendly configuration, align(A,B) and
align(B,A) return different similarity scores for A = [a,b,a] and
B = [b,c,a,b]; and at the demo configuration the aligned sequences of the two
calls are not mirror images for A = [a,b] and B = [b,a]. -/
theorem c4_counterexample :
    simOf (align cfgTie [tokA, tokB, tokA] [tokB, tokC, tokA, tokB]) ≠
      simOf (align cfgTie [tokB, tokC, tokA, tokB] [tokA, tokB, tokA]) ∧
    alignedFirstOf (align cfgDemo [tokB, tokA] [tokA, tokB]) ≠
      alignedSecondOf (align cfgDemo [tokA, tokB] [tokB, tokA]) := by
  constructor
  · have e1 := simOf_align cfgTie [tokA, tokB, tokA] [tokB, tokC, tokA, tokB] (by decide)
    have e2 := simOf_align cfgTie [tokB, tokC, tokA, tokB] [tokA, tokB, tokA] (by decide)
    have h1 : matchCount (backtrace cfgTie [tokA, tokB, tokA] [tokB, tokC, tokA, tokB]) = 2 := by
      decide
    have h2 : (alignedFirst (backtrace cfgTie [tokA, tokB, tokA] [tokB, tokC, tokA, tokB])
        [tokA, tokB, tokA]).length = 5 := by decide
    have h3 : matchCount (backtrace cfgTie [tokB, tokC, tokA, tokB] [tokA, tokB, tokA]) = 1 := by
      decide
    have h4 : (alignedFirst (backtrace cfgTie [tokB, tokC, tokA, tokB] [tokA, tokB, tokA])
        [tokB, tokC, tokA, tokB]).length = 4 := by decide
    rw [e1, e2, similarityScore, similarityScore, if_neg (by rw [h2]; omega),
        if_neg (by rw [h4]; omega), h1, h2, h3, h4]
    norm_num
  · decide

/-- C5: aligning two empty sequences yields similarity 1 with zero-length
aligned sequences; aligning the empty sequence with a nonempty B yields
similarity 0, aligned_first entirely gap markers, and aligned_second equal
to B. -/
theorem c5_empty_inputs (cfg : AlignConfig) (B : List Token) (hB : B ≠ []) :
    (∃ r, align cfg [] [] = Except.ok r ∧ r.similarity = 1 ∧
       r.aligned_first = [] ∧ r.aligned_second = []) ∧
    (∃ r, align cfg [] B = Except.ok r ∧ r.similarity = 0 ∧
       r.aligned_first = List.replicate B.length none ∧
       r.aligned_second = B.map some) := by
  constructor
  · refine ⟨⟨backtrace cfg [] [], alignedFirst (backtrace cfg [] []) [],
           alignedSecond (backtrace cfg [] []) [],
           similarityScore (backtrace cfg [] [])
             (alignedFirst (backtrace cfg [] []) []).length⟩,
         by simp [align], ?_, ?_, ?_⟩
    · show similarityScore (backtrace cfg [] [])
        (alignedFirst (backtrace cfg [] []) []).length = 1
      simp [backtrace, backtraceAux, alignedFirst, similarityScore]
    · show alignedFirst (backtrace cfg [] []) [] = []
      simp [backtrace, backtraceAux, alignedFirst]
    · show alignedSecond (backtrace cfg [] []) [] = []
      simp [backtrace, backtraceAux, alignedSecond]
  · have hops : backtrace cfg [] B = List.replicate B.length CellOp.InsertGapInFirst := by
      show backtraceAux cfg [] B (List.length [] + B.length) (List.length []) B.length = _
      simp only [List.length_nil, Nat.zero_add]
      exact backtraceAux_zero_left cfg [] B B.length B.length (le_refl _)
    have hlen : B.length ≠ 0 := by
      intro hc
      exact hB (List.eq_nil_of_length_eq_zero hc)
    refine ⟨⟨backtrace cfg [] B, alignedFirst (backtrace cfg [] B) [],
           alignedSecond (backtrace cfg [] B) B,
           similarityScore (backtrace cfg [] B)
             (alignedFirst (backtrace cfg [] B) []).length⟩,
         by simp [align], ?_, ?_, ?_⟩
    · show similarityScore (backtrace cfg [] B)
        (alignedFirst (backtrace cfg [] B) []).length = 0
      rw [hops, alignedFirst_replicate_gapFirst, similarityScore]
      rw [if_neg (by simpa using hlen)]
      rw [matchCount_replicate_gapFirst]
      simp
    · show alignedFirst (backtrace cfg [] B) [] = List.replicate B.length none
      rw [hops, alignedFirst_replicate_gapFirst]
    · show alignedSecond (backtrace cfg [] B) B = B.map some
      rw [hops, alignedSecond_replicate_gapFirst]

theorem c5_witness :
    [tokB, tokA] ≠ ([] : List Token) ∧
    ((∃ r, align cfgDemo [] [] = Except.ok r ∧ r.similarity = 1 ∧
       r.aligned_first = [] ∧ r.aligned_second = []) ∧
     (∃ r, align cfgDemo [] [tokB, tokA] = Except.ok r ∧ r.similarity = 0 ∧
       r.aligned_first = List.replicate [tokB, tokA].length none ∧
       r.aligned_second = [tokB, tokA].map some)) :=
  ⟨by decide, c5_empty_inputs cfgDemo [tokB, tokA] (by decide)⟩

/-- C6: align fails with SequenceTooLargeError exactly when the product of the
two sequence lengths exceeds the configured bound, returning no result in that
case, and succeeds with a complete AlignmentResult on every pair within the
bound. -/
theorem c6_size_bound (cfg : AlignConfig) (A B : List Token) :
    (align cfg A B = Except.error AlignError.SequenceTooLargeError ↔
      cfg.maxProduct < A.length * B.length) ∧
    (A.length * B.length ≤ cfg.maxProduct → ∃ r, align cfg A B = Except.ok r) := by
  constructor
  · constructor
    · intro h
      by_cases hc : cfg.maxProduct < A.length * B.length
      · exact hc
      · simp [align, hc] at h
    · intro hc
      simp [align, hc]
  · intro h
    exact ⟨⟨backtrace cfg A B, alignedFirst (backtrace cfg A B) A,
            alignedSecond (backtrace cfg A B) B,
            similarityScore (backtrace cfg A B)
              (alignedFirst (backtrace cfg A B) A).length⟩,
           by simp [align, show ¬ cfg.maxProduct < A.length * B.length by omega]⟩

theorem c6_witness :
    (align cfgSmall [tokA, tokB] [tokB, tokC] = Except.error AlignError.SequenceTooLargeError) ∧
    ∃ r, align cfgDemo [tokA, tokB] [tokB, tokC] = Except.ok r :=
  ⟨(c6_size_bound cfgSmall [tokA, tokB] [tokB, tokC]).1.mpr (by decide),
   (c6_size_bound cfgDemo [tokA, tokB] [tokB, tokC]).2 (by decide)⟩
end CodeAlign

namespace Server

theorem manage_alignment_storage_eq (users : List User)
    (histories : List AlignmentHistory) (fs : List String) (uid : Nat) :
    manage_alignment_storage users histories fs uid =
      if 5 < (userAlignments histories uid).length then
        (users, histories, fs.filter (fun d =>
          ! ((userAlignments histories uid).take
              ((userAlignments histories uid).length - 5)).any
              (fun a => alignment_dir uid a.alignment_id == d)))
      else (users, histories, fs) := rfl

theorem align_route_eq (logged_in : Bool) (file1 file2 : Option FileUpload) :
    Server.align logged_in file1 file2 =
      (if logged_in = false then AlignRouteResult.redirectLogin
       else if upload_errors file1 file2 = [] then
         match file1, file2 with
         | some f1, some f2 =>
             AlignRouteResult.performed (pyStrip (decode_replace f1.content))
               (pyStrip (decode_replace f2.content))
         | _, _ => AlignRouteResult.rejected [err_required]
       else AlignRouteResult.rejected (upload_errors file1 file2)) := rfl

/-- C7: a POST to the pairwise-alignment route with a missing file, a filename
not ending in .py, or a file larger than 1MB is rejected with error messages
and perform_alignment is never reached; whenever perform_alignment is reached,
both files passed validation, are at most 1MB, and the texts handed over are
the fully decoded, stripped file contents. -/
theorem c7_upload_gating (file1 file2 : Option FileUpload) :
    ((file1 = none ∨ file2 = none ∨
        (∃ f, file1 = some f ∧
          (ends_with f.filename pyExt = false ∨ MAX_SIZE < f.content_length)) ∨
        (∃ f, file2 = some f ∧
          (ends_with f.filename pyExt = false ∨ MAX_SIZE < f.content_length))) →
      Server.align true file1 file2 = AlignRouteResult.rejected (upload_errors file1 file2) ∧
      upload_errors file1 file2 ≠ []) ∧
    (∀ t1 t2, Server.align true file1 file2 = AlignRouteResult.performed t1 t2 →
      ∃ f1 f2, file1 = some f1 ∧ file2 = some f2 ∧
        f1.content_length ≤ MAX_SIZE ∧ f2.content_length ≤ MAX_SIZE ∧
        ends_with f1.filename pyExt = true ∧ ends_with f2.filename pyExt = true ∧
        t1 = pyStrip (decode_replace f1.content) ∧
        t2 = pyStrip (decode_replace f2.content)) := by
  constructor
  · intro hbad
    have hne : upload_errors file1 file2 ≠ [] := by
      rcases hbad with h | h | ⟨f, hf, hx | hx⟩ | ⟨f, hf, hx | hx⟩
      · subst h; intro hc; simp [upload_errors] at hc
      · subst h; intro hc; simp [upload_errors] at hc
      · subst hf; intro hc; simp [upload_errors, hx] at hc
      · subst hf; intro hc; simp [upload_errors, hx] at hc
      · subst hf; intro hc; simp [upload_errors, hx] at hc
      · subst hf; intro hc; simp [upload_errors, hx] at hc
    refine ⟨?_, hne⟩
    simp [Server.align, hne]
  · intro t1 t2 h
    rw [align_route_eq] at h
    rw [if_neg (by simp)] at h
    cases file1 with
    | none =>
      by_cases hemp : upload_errors none file2 = []
      · exact absurd hemp (by simp [upload_errors])
      · rw [if_neg hemp] at h
        exact absurd h (by simp)
    | some f1 =>
      cases file2 with
      | none =>
        by_cases hemp : upload_errors (some f1) none = []
        · exact absurd hemp (by simp [upload_errors])
        · rw [if_neg hemp] at h
          exact absurd h (by simp)
      | some f2 =>
        by_cases hemp : upload_errors (some f1) (some f2) = []
        · rw [if_pos hemp] at h
          have hext1 : ends_with f1.filename pyExt = true := by
            by_contra hx
            rw [Bool.not_eq_true] at hx
            simp [upload_errors, hx] at hemp
          have hext2 : ends_with f2.filename pyExt = true := by
            by_contra hx
            rw [Bool.not_eq_true] at hx
            simp [upload_errors, hx] at hemp
          have hsz1 : f1.content_length ≤ MAX_SIZE := by
            by_contra hx
            simp [upload_errors, Nat.lt_of_not_le hx] at hemp
          have hsz2 : f2.content_length ≤ MAX_SIZE := by
            by_contra hx
            simp [upload_errors, Nat.lt_of_not_le hx] at hemp
          have h2 : AlignRouteResult.performed (pyStrip (decode_replace f1.content))
              (pyStrip (decode_replace f2.content)) =
              AlignRouteResult.performed t1 t2 := h
          simp only [AlignRouteResult.performed.injEq] at h2
          exact ⟨f1, f2, rfl, rfl, hsz1, hsz2, hext1, hext2, h2.1.symm, h2.2.symm⟩
        · rw [if_neg hemp] at h
          exact absurd h (by simp)

theorem c7_witness :
    (Server.align true none none = AlignRouteResult.rejected (upload_errors none none) ∧
      upload_errors none none ≠ []) ∧
    (∃ f1 f2, some wfile1 = some f1 ∧ some wfile2 = some f2 ∧
      f1.content_length ≤ MAX_SIZE ∧ f2.content_length ≤ MAX_SIZE ∧
      ends_with f1.filename pyExt = true ∧ ends_with f2.filename pyExt = true ∧
      pyStrip (decode_replace wfile1.content) = pyStrip (decode_replace f1.content) ∧
      pyStrip (decode_replace wfile2.content) = pyStrip (decode_replace f2.content)) :=
  ⟨(c7_upload_gating none none).1 (Or.inl rfl),
   (c7_upload_gating (some wfile1) (some wfile2)).2
     (pyStrip (decode_replace wfile1.content))
     (pyStrip (decode_replace wfile2.content)) (by decide)⟩

/-- C8: for a logged-in user, the alignment-results route renders a record
exactly when a stored record matches both the requested alignment_id and the
session user_id, and everything rendered comes from that record; when no such
record exists (in particular when the alignment belongs to another user) the
response is the bare history redirect, which carries no record data. -/
theorem c8_results_access_control (users : List User)
    (histories : List AlignmentHistory) (sess : Option Nat) (aid : String)
    (hu : (current_user users sess).isSome) :
    (∀ sim f1 f2 t1 t2 n1 n2,
      alignment_results users histories sess aid =
        ResultsResponse.renderResults sim f1 f2 t1 t2 n1 n2 →
      ∃ a, a ∈ histories ∧ a.alignment_id = aid ∧ a.user_id = sess.getD 0 ∧
        sim = a.similarity ∧ f1 = a.file1_content ∧ f2 = a.file2_content ∧
        t1 = a.aligned_file1.splitOn newline ∧ t2 = a.aligned_file2.splitOn newline ∧
        n1 = a.file1_name ∧ n2 = a.file2_name) ∧
    ((∀ a ∈ histories, ¬(a.alignment_id = aid ∧ a.user_id = sess.getD 0)) →
      alignment_results users histories sess aid = ResultsResponse.redirectHistory) := by
  obtain ⟨u, hu'⟩ := Option.isSome_iff_exists.mp hu
  constructor
  · intro sim f1 f2 t1 t2 n1 n2 h
    rw [alignment_results, hu'] at h
    cases hfind : histories.find?
        (fun a => a.alignment_id == aid && a.user_id == sess.getD 0) with
    | none =>
      rw [hfind] at h
      exact absurd h (by simp)
    | some a =>
      rw [hfind] at h
      have hmem := List.mem_of_find?_eq_some hfind
      have hpred := List.find?_some hfind
      simp only [Bool.and_eq_true, beq_iff_eq] at hpred
      simp only [ResultsResponse.renderResults.injEq] at h
      exact ⟨a, hmem, hpred.1, hpred.2, h.1.symm, h.2.1.symm, h.2.2.1.symm,
        h.2.2.2.1.symm, h.2.2.2.2.1.symm, h.2.2.2.2.2.1.symm, h.2.2.2.2.2.2.symm⟩
  · intro hforall
    have hfind : histories.find?
        (fun a => a.alignment_id == aid && a.user_id == sess.getD 0) = none := by
      rw [List.find?_eq_none]
      intro a ha
      simpa using hforall a ha
    rw [alignment_results, hu', hfind]

theorem c8_witness :
    (current_user usersW (some 1)).isSome = true ∧
    alignment_results usersW historiesW (some 1) aidTwo =
      ResultsResponse.redirectHistory :=
  ⟨by decide,
   (c8_results_access_control usersW historiesW (some 1) aidTwo (by decide)).2
     (by decide)⟩

/-- C9: a POST to the register route with an already-taken username leaves the
User table and the session unchanged; with a fresh username it inserts exactly
one row, storing only the hash of the password, and sets the session to the
new row's id. -/
theorem c9_register_uniqueness (users : List User) (sess : Option Nat)
    (username password : String) :
    ((∃ u ∈ users, u.username = username) →
      register users sess username password = ⟨users, sess, false⟩) ∧
    ((∀ u ∈ users, u.username ≠ username) →
      register users sess username password =
        ⟨users ++ [⟨next_user_id users, username, generate_password_hash password⟩],
         some (next_user_id users), true⟩) := by
  constructor
  · intro h
    obtain ⟨u, hmem, huname⟩ := h
    rw [register, if_pos]
    rw [List.find?_isSome]
    exact ⟨u, hmem, by simp [huname]⟩
  · intro h
    have hnone : users.find? (fun u => u.username == username) = none := by
      rw [List.find?_eq_none]
      intro u hu
      simpa using h u hu
    rw [register, hnone]
    rfl

theorem c9_witness :
    (register usersW none uAlice pwDemo = ⟨usersW, none, false⟩) ∧
    (register usersW (some 1) uCarol pwDemo).registered = true := by
  have h1 := (c9_register_uniqueness usersW none uAlice pwDemo).1
    ⟨wAlice, by simp [usersW], rfl⟩
  have h2 := (c9_register_uniqueness usersW (some 1) uCarol pwDemo).2 (by decide)
  exact ⟨h1, by rw [h2]⟩

/-- C10: the storage-retention helper leaves the User and AlignmentHistory
tables untouched and never adds directories; every directory it removes is
the upload directory of one of the requesting user's alignments outside the
five most recent by date_created; and when the user has at most five
alignments the filesystem is left unchanged. -/
theorem c10_storage_retention (users : List User)
    (histories : List AlignmentHistory) (fs : List String) (uid : Nat) :
    (manage_alignment_storage users histories fs uid).1 = users ∧
    (manage_alignment_storage users histories fs uid).2.1 = histories ∧
    (∀ d ∈ (manage_alignment_storage users histories fs uid).2.2, d ∈ fs) ∧
    (∀ d ∈ fs, d ∉ (manage_alignment_storage users histories fs uid).2.2 →
      ∃ a, a ∈ (userAlignments histories uid).take
            ((userAlignments histories uid).length - 5) ∧
        a ∈ histories ∧ a.user_id = uid ∧ d = alignment_dir uid a.alignment_id) ∧
    ((userAlignments histories uid).length ≤ 5 →
      (manage_alignment_storage users histories fs uid).2.2 = fs) := by
  rw [manage_alignment_storage_eq]
  by_cases hlen : 5 < (userAlignments histories uid).length
  · rw [if_pos hlen]
    refine ⟨rfl, rfl, ?_, ?_, ?_⟩
    · intro d hd
      exact (List.mem_filter.mp hd).1
    · intro d hd hnot
      have hpred : ¬ (! ((userAlignments histories uid).take
          ((userAlignments histories uid).length - 5)).any
          (fun a => alignment_dir uid a.alignment_id == d)) = true := by
        intro hp
        exact hnot (List.mem_filter.mpr ⟨hd, hp⟩)
      have hany : ((userAlignments histories uid).take
          ((userAlignments histories uid).length - 5)).any
          (fun a => alignment_dir uid a.alignment_id == d) = true := by
        simpa using hpred
      obtain ⟨a, hatake, haeq⟩ := List.any_eq_true.mp hany
      have hmemsort : a ∈ userAlignments histories uid := List.mem_of_mem_take hatake
      have hmemfilter : a ∈ histories.filter (fun a => a.user_id == uid) :=
        (List.perm_insertionSort _ _).mem_iff.mp hmemsort
      obtain ⟨hahist, hauid⟩ := List.mem_filter.mp hmemfilter
      refine ⟨a, hatake, hahist, by simpa using hauid, ?_⟩
      have := beq_iff_eq.mp haeq
      exact this.symm
    · intro hle
      omega
  · rw [if_neg hlen]
    refine ⟨rfl, rfl, fun d hd => hd, ?_, fun _ => rfl⟩
    intro d hd hnot
    exact absurd hd hnot

theorem c10_witness :
    (userAlignments historiesW 1).length ≤ 5 ∧
    (manage_alignment_storage usersW historiesW fsW 1).2.2 = fsW :=
  ⟨by decide,
   (c10_storage_retention usersW historiesW fsW 1).2.2.2.2 (by decide)⟩

end Server
